import Mathlib

/-!
Shallow embedding of `app.py` from the all-in-one Singapore property
calculator, together with theorems checking the specification's claims.

Modelling conventions:
* Python real arithmetic is embedded as exact rational arithmetic (`ℚ`).
  Decimal literals from the source (`0.55`, `0.01`, `1e-12`, ...) become the
  corresponding rationals.
* Python division raises `ZeroDivisionError` on a zero denominator, so every
  division whose denominator is not syntactically nonzero is embedded with the
  checked division `qdiv?`; a function that can raise returns `Option ℚ`
  (`none` = the Python call raises).
* `int(x)` (truncation toward zero) is embedded as `pyInt`.
* The `float("inf")` tier width in `BSD_TIERS` is embedded as `none` in an
  `Option ℚ` width (`min remaining inf = remaining` for every float
  `remaining`, which `tierTake` reproduces).
-/

/-- Checked division: `none` exactly when the denominator is zero
(Python raises `ZeroDivisionError` there). -/
def qdiv? (a b : ℚ) : Option ℚ :=
  if b = 0 then none else some (a / b)

/-- Python `int(...)` on a rational: truncation toward zero. -/
def pyInt (q : ℚ) : ℤ :=
  if 0 ≤ q then ⌊q⌋ else ⌈q⌉

/-- Embedding of `amort_payment(principal, annual_rate, years)` from `app.py` lines 11-18.
Inside the `else` branch `years > 0`, so `int(years * 12)` is a floor and is
embedded via `.toNat`.  The two divisions can divide by zero (when
`int(years*12) = 0`, or when `(1+r)^n = 1`), hence the `Option` result. -/
def amort_payment (principal annual_rate years : ℚ) : Option ℚ :=
  if principal ≤ 0 ∨ years ≤ 0 then some 0
  else
    let r := annual_rate / 12 / 100
    let n : ℕ := ⌊years * 12⌋.toNat
    if r = 0 then qdiv? principal n
    else qdiv? (principal * r * (1 + r) ^ n) ((1 + r) ^ n - 1)

/-- One iteration of the balance loop of `loan_balance` (`app.py` lines 24-27):
`interest = bal * r; principal_pay = pmt - interest; bal = max(0, bal - principal_pay)`. -/
def balStep (r pmt bal : ℚ) : ℚ :=
  max 0 (bal - (pmt - bal * r))

/-- The balance after `m` iterations of the loop of `loan_balance`. -/
def balIter (r pmt bal : ℚ) : ℕ → ℚ
  | 0 => bal
  | m + 1 => balStep r pmt (balIter r pmt bal m)

/-- Embedding of `loan_balance(principal, annual_rate, years, months_elapsed)`
from `app.py` lines 20-28.  The payment is computed once before the loop; if that
computation raises, `loan_balance` raises (= `none`). -/
def loan_balance (principal annual_rate years : ℚ) (months_elapsed : ℕ) :
    Option ℚ :=
  (amort_payment principal annual_rate years).map fun pmt =>
    balIter (annual_rate / 12 / 100) pmt principal months_elapsed

/-- The inner accumulation loop of `irr` (`app.py` lines 33-39): starting from
accumulators `npv` and `d` and time index `t`, fold over the remaining cash
flows.  Each division is checked; the derivative term is only accumulated for
`t > 0`, exactly as in the source. -/
def irrInner (r : ℚ) : List ℚ → ℕ → ℚ → ℚ → Option (ℚ × ℚ)
  | [], _, npv, d => some (npv, d)
  | cf :: rest, t, npv, d =>
    match qdiv? cf ((1 + r) ^ t) with
    | none => none
    | some q =>
      if 0 < t then
        match qdiv? ((t : ℚ) * cf) ((1 + r) ^ (t + 1)) with
        | none => none
        | some dq => irrInner r rest (t + 1) (npv + q) (d - dq)
      else irrInner r rest (t + 1) (npv + q) d

/-- The outer Newton loop of `irr` (`app.py` lines 32-46), counting down the
remaining iteration budget.  When the budget is exhausted the current rate is
returned (`return r` after the `for`).  In the `else` branch `|d| ≥ 1e-12`,
so the unchecked division `npv / d` cannot raise. -/
def irrLoop (cashflows : List ℚ) (tol : ℚ) : ℕ → ℚ → Option ℚ
  | 0, r => some r
  | k + 1, r =>
    match irrInner r cashflows 0 0 0 with
    | none => none
    | some (npv, d) =>
      if |d| < 1 / 10 ^ 12 then some r
      else
        let new_r := r - npv / d
        if |new_r - r| < tol then some new_r
        else irrLoop cashflows tol k new_r

/-- Embedding of `irr(cashflows, guess, tol, max_iter)` from `app.py` lines 30-46.  The
Python defaults are `guess=0.08`, `tol=1e-6`, `max_iter=100`. -/
def irr (cashflows : List ℚ) (guess tol : ℚ) (max_iter : ℕ) : Option ℚ :=
  irrLoop cashflows tol max_iter guess

/-- Embedding of `BSD_TIERS` from `app.py` lines 51-58: `(width, rate)` pairs, the last
width being `float("inf")` (embedded as `none`). -/
def BSD_TIERS : List (Option ℚ × ℚ) :=
  [(some 180000, 1/100),
   (some 180000, 2/100),
   (some 640000, 3/100),
   (some 500000, 4/100),
   (some 1500000, 5/100),
   (none, 6/100)]

/-- Python `take = min(remaining, tier_amt)`; for the infinite tier,
`min(remaining, inf) = remaining`. -/
def tierTake (width : Option ℚ) (remaining : ℚ) : ℚ :=
  match width with
  | some w => min remaining w
  | none => remaining

/-- The loop of `calc_bsd` (`app.py` lines 74-79), with its early `break`
when `remaining <= 0`. -/
def bsdLoop : List (Option ℚ × ℚ) → ℚ → ℚ → ℚ
  | [], _, bsd => bsd
  | (width, rate) :: rest, remaining, bsd =>
    let take := tierTake width remaining
    let bsd1 := bsd + take * rate
    let remaining1 := remaining - take
    if remaining1 ≤ 0 then bsd1 else bsdLoop rest remaining1 bsd1

/-- Embedding of `calc_bsd(amount)` from `app.py` lines 71-80. -/
def calc_bsd (amount : ℚ) : ℚ :=
  bsdLoop BSD_TIERS amount 0

/-- Embedding of `ABSD_TABLE` from `app.py` lines 60-66, as a partial lookup on the
profile string (`none` = profile not in the dict). -/
def ABSD_TABLE (profile : String) : Option (List ℚ) :=
  if profile = "SC" then some [0, 20/100, 30/100]
  else if profile = "PR" then some [5/100, 30/100, 35/100]
  else if profile = "Foreigner" then some [60/100, 60/100, 60/100]
  else if profile = "Entity" then some [65/100, 65/100, 65/100]
  else if profile = "Trust" then some [65/100, 65/100, 65/100]
  else none

/-- Embedding of `calc_absd(amount, profile, count)` from `app.py` lines 82-86.  Each table
row has exactly three entries and the index is at most 2, so the `getD`
default is never taken. -/
def calc_absd (amount : ℚ) (profile : String) (count : ℕ) : ℚ :=
  match ABSD_TABLE profile with
  | none => 0
  | some rates =>
    let idx : ℕ := if count = 0 then 0 else if count = 1 then 1 else 2
    amount * rates.getD idx 0

/-- Embedding of `calc_max_loan(income, debts, age, tenure, rate,
property_type, loan_type)` from `app.py` lines 88-101.  `n = int(tenure * 12)` may be negative, so the
power is an integer power (`zpow`); the final division is checked. -/
def calc_max_loan (income debts age tenure rate : ℚ)
    (property_type loan_type : String) : Option ℚ :=
  let tdsr_cap : ℚ := 55/100
  let msr_cap : ℚ :=
    if property_type = "HDB" ∨ property_type = "EC" then 30/100 else 1
  let stress_rate := rate + 3
  let avail_tdsr := max 0 (income * tdsr_cap - debts)
  let avail_msr := income * msr_cap
  let monthly_cap := min avail_tdsr avail_msr
  let r := stress_rate / 12 / 100
  let n : ℤ := pyInt (tenure * 12)
  if r = 0 then some (monthly_cap * (n : ℚ))
  else qdiv? (monthly_cap * ((1 + r) ^ n - 1)) (r * (1 + r) ^ n)

/-- Modelled from the spec: "capacity bound only by the 55% TDSR cap" — the
loan capacity computed from the TDSR headroom alone, with no MSR minimum
taken.  Used to compare against `calc_max_loan` in Private mode. -/
def maxLoanTDSROnly (income debts tenure rate : ℚ) : ℚ :=
  let avail := max 0 (income * (55/100) - debts)
  let r := (rate + 3) / 12 / 100
  let n : ℤ := pyInt (tenure * 12)
  if r = 0 then avail * (n : ℚ)
  else avail * ((1 + r) ^ n - 1) / (r * (1 + r) ^ n)

/-- C1: `calc_bsd` reproduces the fixed progressive tier table
`[180000@1%, 180000@2%, 640000@3%, 500000@4%, 1500000@5%, ∞@6%]`:
`calc_bsd 0 = 0`, `calc_bsd 180000 = 1800`,
`calc_bsd 1000000 = 1800 + 3600 + 19200 = 24600`; moreover the full table
gives `calc_bsd 3000000 = 119600` and 6% marginal beyond 3.0M
(`calc_bsd 3000100 = 119606`). -/
theorem bsd_tier_table_values :
    calc_bsd 0 = 0 ∧ calc_bsd 180000 = 1800 ∧ calc_bsd 1000000 = 24600 ∧
    calc_bsd 3000000 = 119600 ∧ calc_bsd 3000100 = 119606 := by
  refine ⟨?_, ?_, ?_, ?_, ?_⟩ <;>
    norm_num [calc_bsd, bsdLoop, tierTake, BSD_TIERS]

/-- C7: `calc_absd` is a flat-rate lookup: the quoted values
`calc_absd 1000000 "SC" 0 = 0`, `calc_absd 1000000 "Foreigner" 0 = 600000`,
`calc_absd 1000000 "Entity" 5 = 650000`; any profile outside the table yields
0; and every count ≥ 2 uses the same bucket as count = 2. -/
theorem absd_flat_rate_lookup :
    calc_absd 1000000 "SC" 0 = 0 ∧
    calc_absd 1000000 "Foreigner" 0 = 600000 ∧
    calc_absd 1000000 "Entity" 5 = 650000 ∧
    (∀ (amount : ℚ) (profile : String) (count : ℕ),
      ABSD_TABLE profile = none → calc_absd amount profile count = 0) ∧
    (∀ (amount : ℚ) (profile : String) (count : ℕ), 2 ≤ count →
      calc_absd amount profile count = calc_absd amount profile 2) := by
  refine ⟨?_, ?_, ?_, ?_, ?_⟩
  · norm_num +decide [calc_absd, ABSD_TABLE]
  · norm_num +decide [calc_absd, ABSD_TABLE]
  · norm_num +decide [calc_absd, ABSD_TABLE]
  · intro amount profile count h
    simp [calc_absd, h]
  · intro amount profile count h
    have h0 : count ≠ 0 := by omega
    have h1 : count ≠ 1 := by omega
    simp [calc_absd, h0, h1]

/-- C7 witness: the hypothesis-bearing conjuncts of `absd_flat_rate_lookup`
applied at concrete inputs. -/
theorem absd_flat_rate_lookup_witness :
    calc_absd 5 "Nobody" 3 = 0 ∧ calc_absd 7 "SC" 9 = calc_absd 7 "SC" 2 :=
  ⟨absd_flat_rate_lookup.2.2.2.1 5 "Nobody" 3 (by norm_num +decide [ABSD_TABLE]),
   absd_flat_rate_lookup.2.2.2.2 7 "SC" 9 (by norm_num)⟩

/-- C8: the `age` and `loan_type` parameters of `calc_max_loan` are inert —
the result is identical for any two ages and any two loan types when all
other arguments agree. -/
theorem max_loan_age_loan_type_inert
    (income debts age1 age2 tenure rate : ℚ) (pt lt1 lt2 : String) :
    calc_max_loan income debts age1 tenure rate pt lt1 =
      calc_max_loan income debts age2 tenure rate pt lt2 := rfl

/-- C10: `irr` on the empty cash-flow series does not raise or loop: the
accumulators stay 0, the near-zero-derivative exit fires, and the initial
guess is returned unchanged (in particular for the default guess 0.08). -/
theorem irr_empty_returns_guess (guess tol : ℚ) (k : ℕ) :
    irr [] guess tol k = some guess := by
  cases k with
  | zero => rfl
  | succ m =>
    simp [irr, irrLoop, irrInner]

/-- C6 (amended): `irr` returns the initial guess unchanged on every
single-element series (the derivative accumulator is 0, so the near-zero
derivative exit fires before any Newton step), and an exhausted iteration
budget returns the last computed rate rather than an error. -/
theorem irr_single_element_and_budget :
    (∀ (cf guess tol : ℚ) (k : ℕ), irr [cf] guess tol k = some guess) ∧
    (∀ (cashflows : List ℚ) (guess tol : ℚ),
      irr cashflows guess tol 0 = some guess) := by
  constructor
  · intro cf guess tol k
    cases k with
    | zero => rfl
    | succ m =>
      simp [irr, irrLoop, irrInner, qdiv?]
  · intro cashflows guess tol
    rfl

/-- C6 counterexample: `irr` can signal failure.  On `cashflows = [-2, 1]`
with `guess = 0` (and default tolerance and budget) the first Newton step
lands exactly on rate −1, and the second pass divides by `(1 + r)^1 = 0`:
Python raises `ZeroDivisionError` (here: `none`). -/
theorem irr_division_by_zero_counterexample :
    irr [-2, 1] 0 (1/10^6) 100 = none := by
  have h1 : irrInner (0 : ℚ) [-2, 1] 0 0 0 = some (-1, -1) := by
    norm_num [irrInner, qdiv?]
  have h2 : irrInner (-1 : ℚ) [-2, 1] 0 0 0 = none := by
    norm_num [irrInner, qdiv?]
  have step1 : irr [-2, 1] 0 (1/10^6) 100 = irrLoop [-2, 1] (1/10^6) 99 (-1) := by
    show irrLoop [-2, 1] (1/10^6) (99 + 1) 0 = irrLoop [-2, 1] (1/10^6) 99 (-1)
    rw [irrLoop, h1]
    norm_num
  have step2 : irrLoop [-2, 1] ((1:ℚ)/10^6) 99 (-1) = none := by
    show irrLoop [-2, 1] (1/10^6) (98 + 1) (-1) = none
    rw [irrLoop, h2]
  rw [step1, step2]

/-- C2 counterexample: the preconditions of the claim hold
(`principal = 1 > 0`, `rate = 0 ≥ 0`, `years = 1/24 > 0`, a non-integer
year count), yet `int(years * 12) = 0` and `principal / n` divides by zero:
Python raises `ZeroDivisionError` (here: `none`). -/
theorem amort_payment_div_zero_counterexample :
    (0:ℚ) < 1 ∧ (0:ℚ) ≤ 0 ∧ (0:ℚ) < 1/24 ∧
      amort_payment 1 0 (1/24) = none := by
  refine ⟨by norm_num, le_refl 0, by norm_num, ?_⟩
  norm_num [amort_payment, qdiv?]

/-- C2 (amended): for `principal > 0`, `rate ≥ 0` and `years ≥ 1/12`
(equivalently `int(years * 12) ≥ 1`; `years` need not be an integer),
`amort_payment` reaches no error branch and returns a strictly positive
rational. -/
theorem amort_payment_pos (p rate years : ℚ) (hp : 0 < p) (hr : 0 ≤ rate)
    (hy : 1/12 ≤ years) : ∃ q, amort_payment p rate years = some q ∧ 0 < q := by
  have hy0 : (0:ℚ) < years := by linarith
  have hfl : (1:ℤ) ≤ ⌊years * 12⌋ := by
    rw [Int.le_floor]
    push_cast
    linarith
  have hn1 : 1 ≤ ⌊years * 12⌋.toNat := by omega
  have hguard : ¬(p ≤ 0 ∨ years ≤ 0) := by
    push_neg
    exact ⟨hp, hy0⟩
  simp only [amort_payment]
  rw [if_neg hguard]
  have hnQ : (1:ℚ) ≤ (⌊years * 12⌋.toNat : ℚ) := by exact_mod_cast hn1
  by_cases hrz : rate / 12 / 100 = 0
  · rw [if_pos hrz]
    refine ⟨p / (⌊years * 12⌋.toNat : ℚ), ?_, ?_⟩
    · rw [qdiv?, if_neg (by linarith : ((⌊years * 12⌋.toNat : ℚ)) ≠ 0)]
    · exact div_pos hp (by linarith)
  · rw [if_neg hrz]
    have hr0 : 0 ≤ rate / 12 / 100 := by positivity
    have hrpos : 0 < rate / 12 / 100 := lt_of_le_of_ne hr0 (Ne.symm hrz)
    have hx : 1 < (1 + rate / 12 / 100) ^ ⌊years * 12⌋.toNat :=
      one_lt_pow₀ (by linarith) (by omega)
    have hden : (1 + rate / 12 / 100) ^ ⌊years * 12⌋.toNat - 1 ≠ 0 :=
      sub_ne_zero.mpr (ne_of_gt hx)
    refine ⟨p * (rate / 12 / 100) * (1 + rate / 12 / 100) ^ ⌊years * 12⌋.toNat /
        ((1 + rate / 12 / 100) ^ ⌊years * 12⌋.toNat - 1), ?_, ?_⟩
    · rw [qdiv?, if_neg hden]
    · apply div_pos
      · have hxpos : (0:ℚ) < (1 + rate / 12 / 100) ^ ⌊years * 12⌋.toNat := by
          positivity
        exact mul_pos (mul_pos hp hrpos) hxpos
      · linarith

/-- C2 witness: the amended theorem at `principal = 1200`, `rate = 0`,
`years = 1`. -/
theorem amort_payment_pos_witness :
    ∃ q, amort_payment 1200 0 1 = some q ∧ 0 < q :=
  amort_payment_pos 1200 0 1 (by norm_num) (by norm_num) (by norm_num)

/-- Under `principal ≥ 0`, `rate ≥ 0`, `years ≥ 1/12`, `amort_payment`
succeeds and its value is nonnegative and at least the first month's
interest `principal * (rate/12/100)`. -/
theorem amort_payment_lower (p rate years : ℚ) (hp : 0 ≤ p) (hr : 0 ≤ rate)
    (hy : 1/12 ≤ years) :
    ∃ pmt, amort_payment p rate years = some pmt ∧ 0 ≤ pmt ∧
      p * (rate / 12 / 100) ≤ pmt := by
  have hy0 : (0:ℚ) < years := by linarith
  rcases eq_or_lt_of_le hp with hp0 | hp0
  · refine ⟨0, ?_, le_refl 0, ?_⟩
    · simp [amort_payment, ← hp0]
    · rw [← hp0]
      norm_num
  · have hfl : (1:ℤ) ≤ ⌊years * 12⌋ := by
      rw [Int.le_floor]
      push_cast
      linarith
    have hn1 : 1 ≤ ⌊years * 12⌋.toNat := by omega
    have hnQ : (1:ℚ) ≤ (⌊years * 12⌋.toNat : ℚ) := by exact_mod_cast hn1
    have hguard : ¬(p ≤ 0 ∨ years ≤ 0) := by
      push_neg
      exact ⟨hp0, hy0⟩
    rcases eq_or_lt_of_le hr with hr0 | hr0
    · refine ⟨p / (⌊years * 12⌋.toNat : ℚ), ?_, ?_, ?_⟩
      · simp only [amort_payment]
        rw [if_neg hguard, if_pos (by rw [← hr0]; norm_num), qdiv?,
          if_neg ((lt_of_lt_of_le one_pos hnQ).ne' :
            ((⌊years * 12⌋.toNat : ℚ)) ≠ 0)]
      · exact le_of_lt (div_pos hp0 (by linarith))
      · rw [← hr0]
        have : (0:ℚ) / 12 / 100 = 0 := by norm_num
        rw [this, mul_zero]
        exact le_of_lt (div_pos hp0 (by linarith))
    · have hrmpos : 0 < rate / 12 / 100 := by positivity
      have hrz : ¬(rate / 12 / 100 = 0) := ne_of_gt hrmpos
      have hx : 1 < (1 + rate / 12 / 100) ^ ⌊years * 12⌋.toNat :=
        one_lt_pow₀ (by linarith) (by omega)
      have hden : (1 + rate / 12 / 100) ^ ⌊years * 12⌋.toNat - 1 ≠ 0 :=
        sub_ne_zero.mpr (ne_of_gt hx)
      have hlow : p * (rate / 12 / 100) ≤
          p * (rate / 12 / 100) * (1 + rate / 12 / 100) ^ ⌊years * 12⌋.toNat /
            ((1 + rate / 12 / 100) ^ ⌊years * 12⌋.toNat - 1) := by
        rw [le_div_iff (by linarith)]
        have hpr : 0 ≤ p * (rate / 12 / 100) :=
          le_of_lt (mul_pos hp0 hrmpos)
        nlinarith
      refine ⟨p * (rate / 12 / 100) *
          (1 + rate / 12 / 100) ^ ⌊years * 12⌋.toNat /
          ((1 + rate / 12 / 100) ^ ⌊years * 12⌋.toNat - 1), ?_, ?_, hlow⟩
      · simp only [amort_payment]
        rw [if_neg hguard, if_neg hrz, qdiv?, if_neg hden]
      · exact le_trans (le_of_lt (mul_pos hp0 hrmpos)) hlow

/-- Loop invariant for the balance simulation: when the monthly rate and the
payment are nonnegative and the payment covers the interest on the initial
principal, the balance stays within `[0, principal]`. -/
theorem balIter_bounds (rm pmt p : ℚ) (hp : 0 ≤ p) (hrm : 0 ≤ rm)
    (h0 : 0 ≤ pmt) (hlow : p * rm ≤ pmt) (m : ℕ) :
    0 ≤ balIter rm pmt p m ∧ balIter rm pmt p m ≤ p := by
  induction m with
  | zero => exact ⟨hp, le_refl p⟩
  | succ k ih =>
    obtain ⟨hb0, hbp⟩ := ih
    have hint : balIter rm pmt p k * rm ≤ pmt :=
      le_trans (mul_le_mul_of_nonneg_right hbp hrm) (by linarith [hlow])
    simp only [balIter, balStep]
    constructor
    · exact le_max_left 0 _
    · apply max_le hp
      linarith

/-- Each iteration of the balance loop does not increase the balance, under
the same side conditions as `balIter_bounds`. -/
theorem balIter_mono (rm pmt p : ℚ) (hp : 0 ≤ p) (hrm : 0 ≤ rm)
    (h0 : 0 ≤ pmt) (hlow : p * rm ≤ pmt) (m : ℕ) :
    balIter rm pmt p (m+1) ≤ balIter rm pmt p m := by
  obtain ⟨hb0, hbp⟩ := balIter_bounds rm pmt p hp hrm h0 hlow m
  have hint : balIter rm pmt p m * rm ≤ pmt :=
    le_trans (mul_le_mul_of_nonneg_right hbp hrm) hlow
  simp only [balIter, balStep]
  apply max_le hb0
  linarith

/-- C3 counterexample: with a negative principal the claim fails — at
`months_elapsed = 0` the returned balance is the principal itself, which is
negative, contradicting "never negative" (and the next step rises to 0,
contradicting "non-increasing"). -/
theorem loan_balance_negative_counterexample :
    loan_balance (-1) 0 1 0 = some (-1) ∧ ¬(0 ≤ (-1 : ℚ)) := by
  constructor
  · norm_num [loan_balance, amort_payment, balIter]
  · norm_num

/-- C3 (amended): for `principal ≥ 0`, `rate ≥ 0` and `years ≥ 1/12`, the
balance simulation succeeds and is non-increasing in `months_elapsed` and
never negative. -/
theorem loan_balance_monotone_nonneg (p rate years : ℚ) (hp : 0 ≤ p)
    (hr : 0 ≤ rate) (hy : 1/12 ≤ years) (m : ℕ) :
    ∃ b b1, loan_balance p rate years m = some b ∧
      loan_balance p rate years (m+1) = some b1 ∧ 0 ≤ b ∧ b1 ≤ b := by
  obtain ⟨pmt, hpmt, h0, hlow⟩ := amort_payment_lower p rate years hp hr hy
  have hrm : (0:ℚ) ≤ rate / 12 / 100 := by positivity
  refine ⟨balIter (rate / 12 / 100) pmt p m,
    balIter (rate / 12 / 100) pmt p (m+1), ?_, ?_, ?_, ?_⟩
  · simp [loan_balance, hpmt]
  · simp [loan_balance, hpmt]
  · exact (balIter_bounds _ _ _ hp hrm h0 hlow m).1
  · exact balIter_mono _ _ _ hp hrm h0 hlow m

/-- C3 witness: the amended theorem at `principal = 1200`, `rate = 24`,
`years = 1`, `months_elapsed = 5`. -/
theorem loan_balance_monotone_nonneg_witness :
    ∃ b b1, loan_balance 1200 24 1 5 = some b ∧
      loan_balance 1200 24 1 6 = some b1 ∧ 0 ≤ b ∧ b1 ≤ b :=
  loan_balance_monotone_nonneg 1200 24 1 (by norm_num) (by norm_num)
    (by norm_num) 5

/-- Unfolding of `amort_payment` at zero annual rate on the main branch. -/
theorem amort_payment_eq_zero_rate (p years : ℚ) (hp : 0 < p) (hy : 0 < years) :
    amort_payment p 0 years = qdiv? p ((⌊years * 12⌋.toNat : ℕ) : ℚ) := by
  simp only [amort_payment]
  rw [if_neg (by push_neg; exact ⟨hp, hy⟩), if_pos (by norm_num)]

/-- Unfolding of `amort_payment` at positive annual rate on the main branch. -/
theorem amort_payment_eq_pos_rate (p rate years : ℚ) (hp : 0 < p)
    (hr : 0 < rate) (hy : 0 < years) :
    amort_payment p rate years =
      qdiv? (p * (rate / 12 / 100) * (1 + rate / 12 / 100) ^ ⌊years * 12⌋.toNat)
        ((1 + rate / 12 / 100) ^ ⌊years * 12⌋.toNat - 1) := by
  simp only [amort_payment]
  rw [if_neg (by push_neg; exact ⟨hp, hy⟩), if_neg (by positivity)]

/-- Closed form of the balance loop at zero monthly rate with the level
payment `p / n`: after `m ≤ n` months the balance is `p * (n - m) / n`
(the `max 0` floor never clips). -/
theorem balIter_zero_rate (p : ℚ) (n : ℕ) (hp : 0 < p) (hn : 1 ≤ n) :
    ∀ m, m ≤ n → balIter 0 (p / (n : ℚ)) p m = p * ((n : ℚ) - m) / n := by
  have hnQ : (0:ℚ) < n := by exact_mod_cast Nat.lt_of_lt_of_le Nat.zero_lt_one hn
  intro m
  induction m with
  | zero =>
    intro _
    simp only [balIter, Nat.cast_zero, sub_zero]
    rw [mul_div_assoc, div_self (ne_of_gt hnQ), mul_one]
  | succ k ih =>
    intro hm
    have hk : k ≤ n := by omega
    have hkQ : ((k:ℚ) + 1) ≤ (n:ℚ) := by exact_mod_cast hm
    simp only [balIter, balStep, ih hk]
    have harith : p * ((n:ℚ) - k) / n - (p / n - p * ((n:ℚ) - k) / n * 0)
        = p * ((n:ℚ) - ((k:ℚ) + 1)) / n := by
      field_simp
      ring
    rw [harith]
    have hcast : (((k + 1 : ℕ)) : ℚ) = (k:ℚ) + 1 := by push_cast; ring
    rw [hcast]
    apply max_eq_right
    apply div_nonneg _ (le_of_lt hnQ)
    apply mul_nonneg (le_of_lt hp)
    linarith

/-- Closed form of the balance loop at positive monthly rate `r` with the
annuity payment `p * r * x / (x - 1)` where `x = (1+r)^n`: after `m ≤ n`
months the balance is `p * (x - (1+r)^m) / (x - 1)` (the `max 0` floor never
clips). -/
theorem balIter_pos_rate (p r : ℚ) (hp : 0 < p) (hr : 0 < r) (n : ℕ)
    (hn : 1 ≤ n) :
    ∀ m, m ≤ n →
      balIter r (p * r * (1 + r) ^ n / ((1 + r) ^ n - 1)) p m
        = p * ((1 + r) ^ n - (1 + r) ^ m) / ((1 + r) ^ n - 1) := by
  have hx : 1 < (1 + r) ^ n := one_lt_pow₀ (by linarith) (by omega)
  have hne : (1 + r) ^ n - 1 ≠ 0 := sub_ne_zero.mpr (ne_of_gt hx)
  intro m
  induction m with
  | zero =>
    intro _
    simp only [balIter, pow_zero]
    rw [mul_div_assoc, div_self hne, mul_one]
  | succ k ih =>
    intro hm
    have hk : k ≤ n := by omega
    simp only [balIter, balStep, ih hk]
    have hle : (1 + r) ^ (k + 1) ≤ (1 + r) ^ n :=
      pow_le_pow_right₀ (by linarith) hm
    have harith : p * ((1+r)^n - (1+r)^k) / ((1+r)^n - 1) -
        (p * r * (1+r)^n / ((1+r)^n - 1) -
          p * ((1+r)^n - (1+r)^k) / ((1+r)^n - 1) * r)
        = p * ((1+r)^n - (1+r)^(k+1)) / ((1+r)^n - 1) := by
      rw [pow_succ]
      field_simp
      ring
    rw [harith]
    apply max_eq_right
    apply div_nonneg
    · apply mul_nonneg (le_of_lt hp)
      linarith
    · linarith

/-- C4: for `principal > 0`, `rate ≥ 0`, `years > 0` with `n = years * 12`
whole months, the simulated balance after the full natural term is exactly 0
(in the exact rational arithmetic of this embedding). -/
theorem loan_balance_full_term_zero (p rate years : ℚ) (n : ℕ) (hp : 0 < p)
    (hr : 0 ≤ rate) (hy : 0 < years) (hn : (n : ℚ) = years * 12) :
    loan_balance p rate years n = some 0 := by
  have hn1 : 1 ≤ n := by
    rcases Nat.eq_zero_or_pos n with h0 | h
    · exfalso
      rw [h0] at hn
      norm_num at hn
      nlinarith
    · exact h
  have hfloor : ⌊years * 12⌋ = (n : ℤ) := by
    rw [← hn]
    exact Int.floor_natCast n
  have htoNat : ⌊years * 12⌋.toNat = n := by
    rw [hfloor]
    exact Int.toNat_natCast n
  have hnQpos : (0:ℚ) < (n:ℚ) := by exact_mod_cast hn1
  rcases eq_or_lt_of_le hr with hr0 | hrpos
  · rw [← hr0] at *
    unfold loan_balance
    rw [amort_payment_eq_zero_rate p years hp hy, htoNat, qdiv?,
      if_neg (ne_of_gt hnQpos)]
    simp only [Option.map_some']
    have hrm : (0:ℚ) / 12 / 100 = 0 := by norm_num
    rw [hrm, balIter_zero_rate p n hp hn1 n le_rfl]
    simp
  · unfold loan_balance
    have hrmpos : (0:ℚ) < rate / 12 / 100 := by positivity
    have hx : 1 < (1 + rate / 12 / 100) ^ n :=
      one_lt_pow₀ (by linarith) (by omega)
    have hne : (1 + rate / 12 / 100) ^ n - 1 ≠ 0 :=
      sub_ne_zero.mpr (ne_of_gt hx)
    rw [amort_payment_eq_pos_rate p rate years hp hrpos hy, htoNat, qdiv?,
      if_neg hne]
    simp only [Option.map_some']
    rw [balIter_pos_rate p (rate / 12 / 100) hp (by positivity) n hn1 n le_rfl]
    simp

/-- C4 witness: the theorem at `principal = 1200`, `rate = 0`, `years = 1`,
`n = 12` months. -/
theorem loan_balance_full_term_zero_witness :
    loan_balance 1200 0 1 12 = some 0 :=
  loan_balance_full_term_zero 1200 0 1 12 (by norm_num) (by norm_num)
    (by norm_num) (by norm_num)

/-- C5: with nonnegative income, debts, tenure and rate, `calc_max_loan` in
Private mode equals the TDSR-only capacity (the 1.0·income MSR cap never
binds), and the HDB-mode result never exceeds the Private-mode result for
identical other inputs. -/
theorem max_loan_private_tdsr_only_and_hdb_le
    (income debts age tenure rate : ℚ) (lt : String)
    (hi : 0 ≤ income) (hd : 0 ≤ debts) (ht : 0 ≤ tenure) (hr : 0 ≤ rate) :
    calc_max_loan income debts age tenure rate "Private" lt
        = some (maxLoanTDSROnly income debts tenure rate) ∧
    ∃ lH, calc_max_loan income debts age tenure rate "HDB" lt = some lH ∧
      lH ≤ maxLoanTDSROnly income debts tenure rate := by
  have hr3 : (0:ℚ) < rate + 3 := by linarith
  have hrP : (0:ℚ) < (rate + 3) / 12 / 100 := by positivity
  have hrPne : (rate + 3) / 12 / 100 ≠ 0 := ne_of_gt hrP
  have hn0 : (0:ℤ) ≤ pyInt (tenure * 12) := by
    rw [pyInt, if_pos (by positivity)]
    exact Int.floor_nonneg.mpr (by positivity)
  have hbpos : (0:ℚ) < 1 + (rate + 3) / 12 / 100 := by linarith
  have hxpos : (0:ℚ) < (1 + (rate + 3) / 12 / 100) ^ pyInt (tenure * 12) :=
    zpow_pos hbpos _
  have hx1 : (1:ℚ) ≤ (1 + (rate + 3) / 12 / 100) ^ pyInt (tenure * 12) :=
    one_le_zpow_of_nonneg (by linarith) hn0
  have hden : (0:ℚ) <
      (rate + 3) / 12 / 100 * (1 + (rate + 3) / 12 / 100) ^ pyInt (tenure * 12) :=
    mul_pos hrP hxpos
  have htdsr_le : max 0 (income * (55/100) - debts) ≤ income :=
    max_le hi (by linarith)
  constructor
  · simp only [calc_max_loan, maxLoanTDSROnly]
    rw [if_neg (by decide : ¬("Private" = "HDB" ∨ "Private" = "EC")),
      if_neg hrPne, if_neg hrPne, mul_one,
      min_eq_left htdsr_le, qdiv?, if_neg (ne_of_gt hden)]
  · refine ⟨min (max 0 (income * (55/100) - debts)) (income * (30/100)) *
        ((1 + (rate + 3) / 12 / 100) ^ pyInt (tenure * 12) - 1) /
        ((rate + 3) / 12 / 100 *
          (1 + (rate + 3) / 12 / 100) ^ pyInt (tenure * 12)), ?_, ?_⟩
    · simp only [calc_max_loan]
      rw [if_pos (Or.inl trivial : True ∨ "HDB" = "EC"),
        if_neg hrPne, qdiv?, if_neg (ne_of_gt hden)]
    · simp only [maxLoanTDSROnly]
      rw [if_neg hrPne]
      gcongr
      · linarith
      · exact min_le_left _ _

/-- C5 witness: the theorem at `income = 12000`, `debts = 0`, `age = 35`,
`tenure = 30`, `rate = 3.5`. -/
theorem max_loan_private_tdsr_only_and_hdb_le_witness :
    calc_max_loan 12000 0 35 30 (7/2) "Private" "Bank"
        = some (maxLoanTDSROnly 12000 0 30 (7/2)) ∧
    ∃ lH, calc_max_loan 12000 0 35 30 (7/2) "HDB" "Bank" = some lH ∧
      lH ≤ maxLoanTDSROnly 12000 0 30 (7/2) :=
  max_loan_private_tdsr_only_and_hdb_le 12000 0 35 30 (7/2) "Bank"
    (by norm_num) (by norm_num) (by norm_num) (by norm_num)

/-- C9: with nonnegative income, debts, tenure and rate, `calc_max_loan`
succeeds and never returns a negative loan for any property type or loan
type; when `0.55 * income ≤ debts` the TDSR headroom is clamped to 0 by the
`max(0, ...)` and the loan is exactly 0. -/
theorem max_loan_nonneg_and_clamped (income debts age tenure rate : ℚ)
    (pt lt : String) (hi : 0 ≤ income) (hd : 0 ≤ debts) (ht : 0 ≤ tenure)
    (hr : 0 ≤ rate) :
    ∃ L, calc_max_loan income debts age tenure rate pt lt = some L ∧
      0 ≤ L ∧ (income * (55/100) ≤ debts → L = 0) := by
  have hr3 : (0:ℚ) < rate + 3 := by linarith
  have hrP : (0:ℚ) < (rate + 3) / 12 / 100 := by positivity
  have hrPne : (rate + 3) / 12 / 100 ≠ 0 := ne_of_gt hrP
  have hbpos : (0:ℚ) < 1 + (rate + 3) / 12 / 100 := by linarith
  have hn0 : (0:ℤ) ≤ pyInt (tenure * 12) := by
    rw [pyInt, if_pos (by positivity)]
    exact Int.floor_nonneg.mpr (by positivity)
  have hxpos : (0:ℚ) < (1 + (rate + 3) / 12 / 100) ^ pyInt (tenure * 12) :=
    zpow_pos hbpos _
  have hx1 : (1:ℚ) ≤ (1 + (rate + 3) / 12 / 100) ^ pyInt (tenure * 12) :=
    one_le_zpow_of_nonneg (by linarith) hn0
  have hden : (0:ℚ) <
      (rate + 3) / 12 / 100 * (1 + (rate + 3) / 12 / 100) ^ pyInt (tenure * 12) :=
    mul_pos hrP hxpos
  have hmsr : (0:ℚ) ≤ (if pt = "HDB" ∨ pt = "EC" then (30:ℚ)/100 else 1) := by
    split <;> norm_num
  have hcap : (0:ℚ) ≤ min (max 0 (income * (55/100) - debts))
      (income * (if pt = "HDB" ∨ pt = "EC" then (30:ℚ)/100 else 1)) :=
    le_min (le_max_left 0 _) (mul_nonneg hi hmsr)
  refine ⟨min (max 0 (income * (55/100) - debts))
      (income * (if pt = "HDB" ∨ pt = "EC" then (30:ℚ)/100 else 1)) *
      ((1 + (rate + 3) / 12 / 100) ^ pyInt (tenure * 12) - 1) /
      ((rate + 3) / 12 / 100 *
        (1 + (rate + 3) / 12 / 100) ^ pyInt (tenure * 12)), ?_, ?_, ?_⟩
  · simp only [calc_max_loan]
    rw [if_neg hrPne, qdiv?, if_neg (ne_of_gt hden)]
  · apply div_nonneg _ (le_of_lt hden)
    exact mul_nonneg hcap (by linarith)
  · intro hle
    rw [max_eq_left (by linarith : income * (55/100) - debts ≤ 0),
      min_eq_left (mul_nonneg hi hmsr), zero_mul, zero_div]

/-- C9 witness: the theorem at `income = 1000`, `debts = 1000` (so the TDSR
headroom clamps to 0), `age = 40`, `tenure = 1`, `rate = 0`, Private/Bank. -/
theorem max_loan_nonneg_and_clamped_witness :
    ∃ L, calc_max_loan 1000 1000 40 1 0 "Private" "Bank" = some L ∧
      0 ≤ L ∧ ((1000:ℚ) * (55/100) ≤ 1000 → L = 0) :=
  max_loan_nonneg_and_clamped 1000 1000 40 1 0 "Private" "Bank"
    (by norm_num) (by norm_num) (by norm_num) (by norm_num)
